import Mathlib

/-!
IAdown: transfer of an inverse assembler file to an HP logic analyzer.

A shallow embedding of `src/IAdown.c`.  The program is one `main` function that
parses its options, checks the two length rules, opens a TCP connection,
formats and sends a `:mmemory:download` header, streams the file in chunks of
`FILE_BUFSIZE` bytes, sends a line feed and compares the number of bytes read
with the size that `lstat` reported.

Conventions of the embedding:

* a byte is a `Nat`; a C string is the list of the bytes that come before its
  terminating NUL (`CStr`);
* `getopt_long` belongs to the C library: its successive return values are the
  input `List Opt`, and the arguments left after the options are a `List CStr`;
* every system call whose result the program looks at takes its result from an
  `Env` record; a `send` either returns a negative value or the number of
  bytes it accepted, which can be less than the length it was given (the
  program sets `SO_SNDTIMEO` and tests the result only for `< 0`);
* everything the program does that can be observed from outside is appended
  to a trace of `Event`s, in program order; the run ends with an exit status;
* `size_t` and `off_t` are 64 bits wide and no file has `2^63` bytes, so
  `totalBytes` and `sb.st_size + 1` are natural numbers that never wrap;
* the results of `socket`, `setsockopt` and `inet_addr` are not looked at by
  the program and are not part of `Env`; what `getopt_long` itself writes for
  an unknown option is not part of the trace.
-/

namespace IAdown

/-- The bytes of a C string, terminator excluded. -/
abbrev CStr := List Nat

/-- Source: `#define TELNET_PORT 5025`. -/
def TELNET_PORT : Nat := 5025

/-- Source: `#define STRING_BUFSIZE 100`. -/
def STRING_BUFSIZE : Nat := 100

/-- Source: `#define FILE_BUFSIZE 10000`. -/
def FILE_BUFSIZE : Nat := 10000

/-- Value of `EXIT_SUCCESS` in `stdlib.h`. -/
def EXIT_SUCCESS : Nat := 0

/-- Value of `EXIT_FAILURE` in `stdlib.h`. -/
def EXIT_FAILURE : Nat := 1

/-- The bytes of a string literal of the source. -/
def ascii (s : String) : List Nat := s.toList.map Char.toNat

/-- C library `strlen` on a `CStr`. -/
def strlen (s : CStr) : Nat := s.length

/-- C library `strchr`, as the offset `dotPosn - sFileName` of the first
occurrence of `c`, or `none` for the `NULL` pointer. -/
def strchr : CStr → Nat → Option Nat
  | [], _ => none
  | b :: s, c => if b = c then some 0 else (strchr s c).map (· + 1)

/-! ## Option parsing (lines 95-151) -/

/-- One return of `getopt_long (argc, argv, "a:n:d:f", long_options, ..)`:
`0` for `--verbose` (the flag variable is set by the library), `'f'`, `'a'`,
`'d'`, `'n'` with `optarg`, and `'?'` for an unknown option or a missing
option argument. -/
inductive Opt where
  | verbose
  | floppy
  | address (optarg : CStr)
  | description (optarg : CStr)
  | name (optarg : CStr)
  | unrecognised
  deriving DecidableEq, Repr

/-- The messages the program writes to `stderr`, one constructor for each
`fprintf (stderr, ..)` of the source (and `usage` for the call of `usage`). -/
inductive Msg where
  /-- Text: "error: -d argument too long" -/
  | descriptionTooLong
  /-- Text: "error: -f bad filename argument" -/
  | badFilename
  /-- the text written by `usage (argv[0])` -/
  | usage
  /-- Text: "error: missing inverse assembler file (.R)." -/
  | missingFile
  /-- Text: "error: too many arguments." -/
  | tooManyArguments
  /-- Text: "IP address of logic analyzer and filename of inverse assembler (.r file) required" -/
  | addressAndNameRequired
  /-- the block written when `bVerbose` is set (address, files, description) -/
  | verboseConfig
  /-- Text: "Cannot find / open file: %s" -/
  | cannotFindFile
  /-- Text: "Input file %s is %jd bytes in size" -/
  | inputFileSize (st_size : Nat)
  /-- Text: "Connection error to %s: %s" -/
  | connectionError
  /-- Text: "Error checking *IDN? from logic analyzer: %s" -/
  | idnError
  /-- the header echoed when `bVerbose` is set -/
  | headerEcho (bytes : List Nat)
  /-- Text: "Error sending data: %s" -/
  | sendError
  /-- Text: "error: %s" after a failed `fopen` -/
  | fopenError
  /-- Text: "Error sending file data: %s" -/
  | fileSendError
  /-- Text: "Error trailing LF: %s" -/
  | trailingLFError
  /-- Text: "Short file read: %jd of %jd bytes" -/
  | shortFileRead (totalBytes st_size : Nat)
  deriving DecidableEq, Repr

/-- The four places where the program calls `send`. -/
inductive SendKind where
  | idnQuery
  | header
  | chunk
  | lineFeed
  deriving DecidableEq, Repr

/-- What a run does, in program order. -/
inductive Event where
  | stderr (m : Msg)
  /-- The call `printf ("%s\n", stringBuffer)`, with the bytes written. -/
  | stdout (s : List Nat)
  /-- The call `socket (AF_INET, SOCK_STREAM, 0)`. -/
  | socket
  /-- one call of `setsockopt` -/
  | setsockopt
  /-- The call of `connect` returned without error -/
  | connected
  /-- The call of `connect` returned a negative value -/
  | connectFailed
  /-- a `send` that returned the non-negative value `ret`, with the bytes
  handed to it; the bytes it put on the connection are the first `ret` -/
  | send (k : SendKind) (data : List Nat) (ret : Nat)
  /-- a `send` that returned a negative value -/
  | sendFailed (k : SendKind)
  /-- The call of `recv` returned without error -/
  | recv
  /-- The call of `recv` returned a negative value -/
  | recvFailed
  /-- The call of `fopen` returned a stream -/
  | fopen
  /-- The call of `fopen` returned `NULL` -/
  | fopenFailed
  /-- one `fread`, with the number of bytes it returned -/
  | fread (bytesRead : Nat)
  /-- The call `fclose (filePtr)`. -/
  | fclose
  /-- The call `close (sockfd)`. -/
  | close
  deriving DecidableEq, Repr

/-- The variables that the option loop sets, with their initial values. -/
structure Config where
  sIPaddr : Option CStr := none
  sFileName : Option CStr := none
  sFileDescription : CStr := ascii "Inverse Assembler"
  bVerbose : Bool := false
  bFloppy : Bool := false
  deriving DecidableEq, Repr

/-- The test of `case 'd'` (line 126): `strlen( sFileDescription ) > 32`. -/
def descriptionTooLong (sFileDescription : CStr) : Bool :=
  decide (strlen sFileDescription > 32)

/-- The test of `case 'n'` (lines 134-137):
`(dotPosn != NULL && dotPosn - sFileName > 8) || (dotPosn == NULL && strlen( sFileName ) > 11 )
 || strlen( sFileName ) > 12`, with `dotPosn = strchr (sFileName, '.')`. -/
def badFileName (sFileName : CStr) : Bool :=
  let dotPosn := strchr sFileName 46
  (match dotPosn with
    | some off => decide (off > 8)
    | none => false)
  || (dotPosn.isNone && decide (strlen sFileName > 11))
  || decide (strlen sFileName > 12)

/-- The body of the `switch (opt)`: the new values of the variables, or the
messages written before `exit(EXIT_FAILURE)`. -/
def optStep (cfg : Config) : Opt → Except (List Event) Config
  | .verbose => .ok { cfg with bVerbose := true }
  | .floppy => .ok { cfg with bFloppy := true }
  | .address optarg => .ok { cfg with sIPaddr := some optarg }
  | .description optarg =>
      if descriptionTooLong optarg then .error [.stderr .descriptionTooLong]
      else .ok { cfg with sFileDescription := optarg }
  | .name optarg =>
      if badFileName optarg then .error [.stderr .badFilename]
      else .ok { cfg with sFileName := some optarg }
  | .unrecognised => .error [.stderr .usage]

/-- The `while (true)` loop around `getopt_long`, until it returns `-1`. -/
def parseOpts : List Opt → Config → Except (List Event) Config
  | [], cfg => .ok cfg
  | o :: os, cfg =>
      match optStep cfg o with
      | .error tr => .error tr
      | .ok cfg1 => parseOpts os cfg1

/-! ## The header (lines 223-228, 241) -/

/-- Decimal digits of `n`, most significant first, as ASCII bytes; `fuel`
bounds the number of digits. -/
def decDigitsAux : Nat → Nat → List Nat
  | 0, _ => []
  | fuel + 1, n =>
      if n < 10 then [48 + n] else decDigitsAux fuel (n / 10) ++ [48 + n % 10]

/-- Decimal digits of `n` as `printf` writes them for `%d`. -/
def decDigits (n : Nat) : List Nat := decDigitsAux (n + 1) n

/-- The `printf` conversions `%<width>d` (`zeroFlag = false`, padded with
blanks) and `%0<width>d` (`zeroFlag = true`, padded with `'0'`) of a
non-negative value: `width` is a minimum, never a maximum. -/
def fmt_d (zeroFlag : Bool) (width : Nat) (v : Nat) : List Nat :=
  let ds := decDigits v
  List.replicate (width - ds.length) (if zeroFlag then 48 else 32) ++ ds

/-- The output of the format
`":mmemory:download '%s',internal%1d,'%s',-15614,#8%08jd%c"` with the arguments
`sFileName, bFloppy ? 1 : 0, sFileDescription, sb.st_size + 1, 0`. -/
def headerText (sFileName : CStr) (bFloppy : Bool) (sFileDescription : CStr)
    (st_size : Nat) : List Nat :=
  ascii ":mmemory:download '" ++ sFileName ++ ascii "',internal"
    ++ fmt_d false 1 (if bFloppy then 1 else 0)
    ++ ascii ",'" ++ sFileDescription ++ ascii "',-15614,#8"
    ++ fmt_d true 8 (st_size + 1) ++ [0]

/-- The array `buf` after `snprintf (buf, size, ..)` whose full output would be
`out`: at most `size - 1` bytes of it, then a NUL; the rest of the array keeps
what it held. -/
def snprintf (buf : List Nat) (size : Nat) (out : List Nat) : List Nat :=
  let written := out.take (size - 1) ++ [0]
  written ++ buf.drop written.length

/-- The C string that a character array holds: its bytes up to the first NUL. -/
def bufString (buf : List Nat) : CStr := buf.takeWhile (· ≠ 0)

/-- The bytes handed to `send ( sockfd, stringBuffer, strlen ( stringBuffer ) + 1, 0 )`
after the `snprintf` of the header into `stringBuffer` (which held `buf0`). -/
def headerSent (buf0 : List Nat) (sFileName : CStr) (bFloppy : Bool)
    (sFileDescription : CStr) (st_size : Nat) : List Nat :=
  let stringBuffer := snprintf buf0 STRING_BUFSIZE
    (headerText sFileName bFloppy sFileDescription st_size)
  stringBuffer.take (strlen (bufString stringBuffer) + 1)

/-! ## The environment -/

/-- The results of the system and library calls of one run. -/
structure Env where
  /-- The value of `sb.st_size` when `lstat` succeeds, `none` when it returns `-1` -/
  lstat : Option Nat
  /-- whether `connect` returns a non-negative value -/
  connectOk : Bool
  /-- the result of the `send` of `*IDN?`: `none` when it returns a negative
  value, `some cap` when it accepts at most `cap` bytes -/
  idnSend : Option Nat
  /-- The array `stringBuffer` after `recv` (the reply, then what the array held), or
  `none` when `recv` returns a negative value -/
  idnRecv : Option (List Nat)
  /-- the result of the `send` of the header, as for `idnSend` -/
  headerSend : Option Nat
  /-- the bytes of the source file as the stream opened by `fopen` delivers
  them, or `none` when `fopen` returns `NULL` -/
  fopen : Option (List Nat)
  /-- the most bytes that the `i`-th `fread` delivers (a value below
  `FILE_BUFSIZE` is a read cut short by an error) -/
  freadLimit : Nat → Nat
  /-- the result of the `send` of the `i`-th chunk, as for `idnSend` -/
  chunkSend : Nat → Option Nat
  /-- the result of the `send` of the final line feed, as for `idnSend` -/
  lfSend : Option Nat

/-- The result of a run: exit status and trace. -/
structure Outcome where
  status : Nat
  trace : List Event
  deriving DecidableEq, Repr

/-! ## The chunk loop (lines 252-259) -/

/-- Return value of a `send` of `len` bytes that does not fail, on a
connection that accepts at most `cap` bytes: never more than `len`. -/
def sendReturn (len cap : Nat) : Nat := min len cap

/-- Return value of `fread(buffer, sizeof( unsigned char),FILE_BUFSIZE, filePtr)`
for the `i`-th call, `rest` being the bytes not read yet. -/
def freadCount (env : Env) (i : Nat) (rest : List Nat) : Nat :=
  min (min FILE_BUFSIZE rest.length) (env.freadLimit i)

/-- How the `do .. while` loop ends. -/
inductive LoopResult where
  /-- a `send` failed: the events of the loop up to there -/
  | sendFailed (tr : List Event)
  /-- the loop ended with this `totalBytes` and these events -/
  | done (totalBytes : Nat) (tr : List Event)
  deriving DecidableEq, Repr

/-- The loop
`do { bytesRead = fread (..); totalBytes += bytesRead; if (send (..) < 0) exit; }
 while( bytesRead == FILE_BUFSIZE )`, from its `i`-th iteration on. -/
def sendLoop (env : Env) (i : Nat) (rest : List Nat) (totalBytes : Nat)
    (tr : List Event) : LoopResult :=
  let bytesRead := freadCount env i rest
  let buffer := rest.take bytesRead
  let totalBytes1 := totalBytes + bytesRead
  match env.chunkSend i with
  | some cap =>
      if bytesRead = FILE_BUFSIZE then
        sendLoop env (i + 1) (rest.drop bytesRead) totalBytes1
          (tr ++ [.fread bytesRead, .send .chunk buffer (sendReturn bytesRead cap)])
      else
        .done totalBytes1
          (tr ++ [.fread bytesRead, .send .chunk buffer (sendReturn bytesRead cap)])
  | none =>
      .sendFailed (tr ++ [.fread bytesRead, .sendFailed .chunk,
        .stderr .fileSendError])
termination_by rest.length
decreasing_by
  simp only [List.length_drop]
  have h1 : freadCount env i rest ≤ rest.length := by
    unfold freadCount
    exact le_trans (Nat.min_le_left _ _) (Nat.min_le_right _ _)
  have h2 : 0 < freadCount env i rest := by
    rw [‹freadCount env i rest = FILE_BUFSIZE›]
    decide
  omega

/-! ## The transfer (lines 173-278) -/

/-- Lines 261-278: the final line feed, the comparison of `totalBytes` with
`sb.st_size`, and the clean-up. -/
def finish (env : Env) (st_size totalBytes : Nat) (tr : List Event) : Outcome :=
  match env.lfSend with
  | some cap =>
      if totalBytes ≠ st_size then
        ⟨EXIT_FAILURE, tr ++ [.send .lineFeed [10] (sendReturn 1 cap),
          .stderr (.shortFileRead totalBytes st_size), .fclose]⟩
      else
        ⟨EXIT_SUCCESS, tr ++ [.send .lineFeed [10] (sendReturn 1 cap), .close, .fclose]⟩
  | none =>
      ⟨EXIT_FAILURE, tr ++ [.sendFailed .lineFeed, .stderr .trailingLFError]⟩

/-- Lines 246-259: `fopen` and the chunk loop. -/
def payload (env : Env) (st_size : Nat) (tr : List Event) : Outcome :=
  match env.fopen with
  | none => ⟨EXIT_FAILURE, tr ++ [.fopenFailed, .stderr .fopenError]⟩
  | some content =>
      match sendLoop env 0 content 0 (tr ++ [.fopen]) with
      | .sendFailed tr1 => ⟨EXIT_FAILURE, tr1⟩
      | .done totalBytes tr1 => finish env st_size totalBytes tr1

/-- Lines 222-244: the header is formatted into `stringBuffer`, echoed when
`bVerbose` is set, and sent with its trailing NUL. -/
def header (cfg : Config) (sFileName : CStr) (env : Env) (st_size : Nat)
    (stringBuffer : List Nat) (tr : List Event) : Outcome :=
  let hdr := headerSent stringBuffer sFileName cfg.bFloppy cfg.sFileDescription st_size
  let tr1 := if cfg.bVerbose then tr ++ [.stderr (.headerEcho hdr)] else tr
  match env.headerSend with
  | some cap =>
      payload env st_size (tr1 ++ [.send .header hdr (sendReturn hdr.length cap)])
  | none =>
      ⟨EXIT_FAILURE, tr1 ++ [.sendFailed .header, .stderr .sendError]⟩

/-- Lines 190-220: socket, time-outs, `connect` and the `*IDN?` exchange
(`recv` is not called when the `send` fails: the two are joined by `||`). -/
def connectAndIdentify (cfg : Config) (sFileName : CStr) (env : Env) (st_size : Nat)
    (tr : List Event) : Outcome :=
  let tr1 := tr ++ [.socket, .setsockopt, .setsockopt]
  if env.connectOk then
    match env.idnSend with
    | some cap =>
        match env.idnRecv with
        | some stringBuffer =>
            header cfg sFileName env st_size stringBuffer
              (tr1 ++ [.connected,
                .send .idnQuery (ascii "*IDN?\r\n") (sendReturn (strlen (ascii "*IDN?\r\n")) cap),
                .recv, .stdout (bufString stringBuffer ++ [10])])
        | none =>
            ⟨EXIT_FAILURE, tr1 ++ [.connected,
              .send .idnQuery (ascii "*IDN?\r\n") (sendReturn (strlen (ascii "*IDN?\r\n")) cap),
              .recvFailed, .stderr .idnError]⟩
    | none =>
        ⟨EXIT_FAILURE, tr1 ++ [.connected, .sendFailed .idnQuery, .stderr .idnError]⟩
  else
    ⟨EXIT_FAILURE, tr1 ++ [.connectFailed, .stderr .connectionError]⟩

/-- Lines 173-188: the verbose echo and `lstat`; then the rest of the run. -/
def transfer (cfg : Config) (sFileName : CStr) (env : Env) : Outcome :=
  let tr := if cfg.bVerbose then [Event.stderr .verboseConfig] else []
  match env.lstat with
  | none => ⟨EXIT_FAILURE, tr ++ [.stderr .cannotFindFile]⟩
  | some st_size =>
      let tr1 := if cfg.bVerbose then tr ++ [.stderr (.inputFileSize st_size)] else tr
      connectAndIdentify cfg sFileName env st_size tr1

/-- The function `main`: `opts` are the successive returns of `getopt_long`,
`args` the arguments from `argv[optind]` on. -/
def main (opts : List Opt) (args : List CStr) (env : Env) : Outcome :=
  match parseOpts opts {} with
  | .error tr => ⟨EXIT_FAILURE, tr⟩
  | .ok cfg =>
      match args with
      | [] => ⟨EXIT_FAILURE, [.stderr .missingFile, .stderr .usage]⟩
      | _ :: _ :: _ => ⟨EXIT_FAILURE, [.stderr .tooManyArguments, .stderr .usage]⟩
      | [_] =>
          match cfg.sIPaddr, cfg.sFileName with
          | some _, some sFileName => transfer cfg sFileName env
          | _, _ => ⟨EXIT_FAILURE, [.stderr .addressAndNameRequired, .stderr .usage]⟩

/-! ## Observations on names, headers and traces, used to state the properties -/

/-- The part of a file name after its first `'.'` (empty when there is none). -/
def extension (n : CStr) : CStr := (n.dropWhile (· ≠ 46)).drop 1

/-- An option is accepted when the `switch` goes on to the next option
instead of calling `exit`. -/
def accepts (cfg : Config) (o : Opt) : Prop := ∃ cfg1, optStep cfg o = .ok cfg1

/-- Events that create, configure or use the socket. -/
def Event.isNetwork : Event → Bool
  | .socket | .setsockopt | .connected | .connectFailed
  | .send _ _ _ | .sendFailed _ | .recv | .recvFailed => true
  | _ => false

/-- The bytes handed to the `send`s of kind `k` that did not fail, one list
for each call. -/
def sends (k : SendKind) : List Event → List (List Nat)
  | [] => []
  | .send k1 d _ :: tr => if k1 = k then d :: sends k tr else sends k tr
  | _ :: tr => sends k tr

/-- The return values of the `fread` calls, in order. -/
def freads : List Event → List Nat
  | [] => []
  | .fread n :: tr => n :: freads tr
  | _ :: tr => freads tr

/-- All the bytes put on the connection, in order: of each `send`, the bytes
that its return value counts. -/
def wireBytes : List Event → List Nat
  | [] => []
  | .send _ d ret :: tr => d.take ret ++ wireBytes tr
  | _ :: tr => wireBytes tr

/-- The events that follow the (first) successful `send` of the header. -/
def afterHeader : List Event → List Event
  | [] => []
  | .send .header _ _ :: tr => tr
  | _ :: tr => afterHeader tr

/-- The running total `totalBytes`: the bytes read from the file and handed to
`send`, added up over the chunks. -/
def bytesForwarded (tr : List Event) : Nat := ((sends .chunk tr).map List.length).sum

/-- The events of the chunk loop. -/
def Event.inLoop : Event → Bool
  | .fread _ | .send .chunk _ _ | .sendFailed .chunk | .stderr .fileSendError => true
  | _ => false

/-- A run that nothing disturbs: the file holds `F` from `lstat` to the last
read, the connection is made and the reply to `*IDN?` arrives (leaving `buf`
in `stringBuffer`), no read is cut short and no `send` returns a negative
value. -/
def Undisturbed (env : Env) (F buf : List Nat) : Prop :=
  env.lstat = some F.length ∧ env.connectOk = true ∧ env.idnSend.isSome = true
    ∧ env.idnRecv = some buf ∧ env.headerSend.isSome = true ∧ env.fopen = some F
    ∧ (∀ i, FILE_BUFSIZE ≤ env.freadLimit i) ∧ (∀ i, (env.chunkSend i).isSome = true)
    ∧ env.lfSend.isSome = true

/-- Every `send` of the payload accepts all the bytes it is given: a chunk has
at most `FILE_BUFSIZE` bytes, the line feed is one byte. -/
def WholeSends (env : Env) : Prop :=
  (∀ i cap, env.chunkSend i = some cap → FILE_BUFSIZE ≤ cap)
    ∧ (∀ cap, env.lfSend = some cap → 1 ≤ cap)

/-- The eight decimal digits of `n`, zero-padded on the left, as ASCII bytes:
the digit of `10^7` first, the units last. -/
def decimal8 (n : Nat) : List Nat :=
  [48 + n / 10000000 % 10, 48 + n / 1000000 % 10, 48 + n / 100000 % 10,
   48 + n / 10000 % 10, 48 + n / 1000 % 10, 48 + n / 100 % 10, 48 + n / 10 % 10,
   48 + n % 10]

/-- The number that a sequence of ASCII decimal digits writes. -/
def digitsValue (ds : List Nat) : Nat := ds.foldl (fun acc c => 10 * acc + (c - 48)) 0

/-- The byte-count field of a header: what follows the `#8` that ends the
fixed text after the description, up to the NUL. -/
def byteCountField (hdr : List Nat) (sFileName sFileDescription : CStr) : List Nat :=
  (hdr.drop ((ascii ":mmemory:download '").length + sFileName.length
      + (ascii "',internal").length + 1 + (ascii ",'").length + sFileDescription.length
      + (ascii "',-15614,#8").length)).takeWhile (· ≠ 0)

/-! ## Example runs -/

/-- The options of `IAdown -a 192.168.1.16 -n I6809 -d "MC6809 Inverse Assembler" I6809.R`. -/
def exampleOpts : List Opt :=
  [.address (ascii "192.168.1.16"), .name (ascii "I6809"),
   .description (ascii "MC6809 Inverse Assembler")]

/-- The variables after the option loop has read `exampleOpts`. -/
def exampleConfig : Config :=
  { sIPaddr := some (ascii "192.168.1.16"), sFileName := some (ascii "I6809"),
    sFileDescription := ascii "MC6809 Inverse Assembler" }

/-- The array `stringBuffer` after the reply to `*IDN?` has been received. -/
def exampleReply : List Nat := ascii "HEWLETT PACKARD,1660ES\n" ++ [0]

/-- An environment in which every call succeeds and every `send` accepts up
to `FILE_BUFSIZE` bytes: `lstat` reports `st_size` and the stream delivers
`content`. -/
def quietEnv (st_size : Nat) (content : List Nat) : Env :=
  { lstat := some st_size, connectOk := true, idnSend := some FILE_BUFSIZE,
    idnRecv := some exampleReply, headerSend := some FILE_BUFSIZE, fopen := some content,
    freadLimit := fun _ => FILE_BUFSIZE, chunkSend := fun _ => some FILE_BUFSIZE,
    lfSend := some FILE_BUFSIZE }

/-- The logic analyzer refuses the connection. -/
def refusedEnv : Env := { quietEnv 3 [1, 2, 3] with connectOk := false }

/-- The file had 5 bytes at `lstat` and has 3 when it is read. -/
def truncatedEnv : Env := quietEnv 5 [1, 2, 3]

/-- The file holds the bytes 1, 2, 3 and the `send` of the chunk times out
after two of them: it returns 2. -/
def shortSendEnv : Env := { quietEnv 3 [1, 2, 3] with chunkSend := fun _ => some 2 }

/-! ## The length rules of `-n` and `-d` -/

theorem strchr_eq_none (s : CStr) (c : Nat) : strchr s c = none ↔ c ∉ s := by
  induction s with
  | nil => simp [strchr]
  | cons b s ih =>
    by_cases h : b = c
    · simp [strchr, h]
    · simp [strchr, h, ih, Ne.symm h]

theorem strchr_eq_some (s : CStr) (c k : Nat) (h : strchr s c = some k) :
    c ∈ s ∧ k = (s.takeWhile (· ≠ c)).length := by
  induction s generalizing k with
  | nil => simp [strchr] at h
  | cons b s ih =>
    by_cases hb : b = c
    · simp [strchr, hb] at h
      simp [hb, ← h]
    · simp only [strchr, hb, if_false, Option.map_eq_some'] at h
      obtain ⟨j, hj, rfl⟩ := h
      obtain ⟨h1, h2⟩ := ih j hj
      simp [h1, hb, h2]

theorem badFileName_eq_false (n : CStr) :
    badFileName n = false ↔
      (46 ∈ n ∧ (n.takeWhile (· ≠ 46)).length ≤ 8 ∧ n.length ≤ 12)
        ∨ (46 ∉ n ∧ n.length ≤ 11) := by
  unfold badFileName strlen
  cases h : strchr n 46 with
  | none =>
    have h1 := (strchr_eq_none n 46).1 h
    simp [h1]
    omega
  | some k =>
    obtain ⟨h1, h2⟩ := strchr_eq_some n 46 k h
    subst h2
    simp [h1]

theorem optStep_name_ok (cfg : Config) (n : CStr) :
    accepts cfg (.name n) ↔ badFileName n = false := by
  unfold accepts optStep
  cases h : badFileName n <;> simp [h]

/-- C4: the `-n` validation accepts a name exactly when it has a `'.'` with at
most 8 characters before the first one and at most 12 characters in all, or
has no `'.'` and at most 11 characters; so a name of more than 12 characters
and a name of 12 characters without a `'.'` are rejected (with the message of
line 138). -/
theorem C4_name_validation (cfg : Config) (n : CStr) :
    (accepts cfg (.name n) ↔
      (46 ∈ n ∧ (n.takeWhile (· ≠ 46)).length ≤ 8 ∧ n.length ≤ 12)
        ∨ (46 ∉ n ∧ n.length ≤ 11))
    ∧ (12 < n.length → optStep cfg (.name n) = .error [.stderr .badFilename])
    ∧ (n.length = 12 → 46 ∉ n →
        optStep cfg (.name n) = .error [.stderr .badFilename]) := by
  have key := badFileName_eq_false n
  refine ⟨(optStep_name_ok cfg n).trans key, ?_, ?_⟩
  · intro h
    have hb : badFileName n = true := by
      cases hb : badFileName n with
      | true => rfl
      | false => rcases key.1 hb with ⟨_, _, h3⟩ | ⟨_, h3⟩ <;> omega
    simp [optStep, hb]
  · intro h hdot
    have hb : badFileName n = true := by
      cases hb : badFileName n with
      | true => rfl
      | false =>
        rcases key.1 hb with ⟨h1, _, _⟩ | ⟨_, h3⟩
        · exact absurd h1 hdot
        · omega
    simp [optStep, hb]

/-! ## Traces -/

theorem sends_append (k : SendKind) (a b : List Event) :
    sends k (a ++ b) = sends k a ++ sends k b := by
  induction a with
  | nil => rfl
  | cons e a ih =>
    cases e <;> simp [sends, ih]
    split <;> simp

theorem freads_append (a b : List Event) : freads (a ++ b) = freads a ++ freads b := by
  induction a with
  | nil => rfl
  | cons e a ih => cases e <;> simp [freads, ih]

theorem wireBytes_append (a b : List Event) :
    wireBytes (a ++ b) = wireBytes a ++ wireBytes b := by
  induction a with
  | nil => rfl
  | cons e a ih => cases e <;> simp [wireBytes, ih]

theorem bytesForwarded_append (a b : List Event) :
    bytesForwarded (a ++ b) = bytesForwarded a + bytesForwarded b := by
  simp [bytesForwarded, sends_append]

theorem bytesForwarded_nil : bytesForwarded [] = 0 := rfl

theorem bytesForwarded_cons (e : Event) (tr : List Event) :
    bytesForwarded (e :: tr)
      = (match e with
          | .send .chunk d _ => d.length
          | _ => 0) + bytesForwarded tr := by
  cases e with
  | send k d ret => cases k <;> simp [bytesForwarded, sends]
  | _ => simp [bytesForwarded, sends]

/-! ## The chunk loop -/

theorem freadCount_le (env : Env) (i : Nat) (rest : List Nat) :
    freadCount env i rest ≤ rest.length := by
  unfold freadCount
  exact le_trans (Nat.min_le_left _ _) (Nat.min_le_right _ _)

theorem freadCount_full (env : Env) (hread : ∀ j, FILE_BUFSIZE ≤ env.freadLimit j)
    (i : Nat) (rest : List Nat) : freadCount env i rest = min FILE_BUFSIZE rest.length := by
  unfold freadCount
  exact Nat.min_eq_left (le_trans (Nat.min_le_left _ _) (hread i))

/-- Whatever the reads and sends do, the loop ends; it adds only events of
the loop to the trace, and when it ends without a failed `send` the total it
returns is the total it started with plus the bytes it handed to `send`. -/
theorem sendLoop_trace (env : Env) (n : Nat) :
    ∀ (rest : List Nat), rest.length = n → ∀ (i total : Nat) (tr : List Event),
      ∃ ext, (∀ e ∈ ext, e.inLoop = true) ∧
        (sendLoop env i rest total tr = .sendFailed (tr ++ ext)
          ∨ sendLoop env i rest total tr = .done (total + bytesForwarded ext) (tr ++ ext)) := by
  induction n using Nat.strong_induction_on with
  | _ n ih =>
    intro rest hn i total tr
    rw [sendLoop]
    have hle := freadCount_le env i rest
    cases hs : env.chunkSend i with
    | some cap =>
      by_cases hb : freadCount env i rest = FILE_BUFSIZE
      · have hlt : (rest.drop (freadCount env i rest)).length < n := by
          simp only [List.length_drop]
          rw [hb] at hle ⊢
          simp only [FILE_BUFSIZE] at hle ⊢
          omega
        obtain ⟨ext, hext, hres⟩ := ih _ hlt (rest.drop (freadCount env i rest)) rfl (i + 1)
          (total + freadCount env i rest)
          (tr ++ [.fread (freadCount env i rest),
            .send .chunk (rest.take (freadCount env i rest))
              (sendReturn (freadCount env i rest) cap)])
        refine ⟨[.fread (freadCount env i rest),
            .send .chunk (rest.take (freadCount env i rest))
              (sendReturn (freadCount env i rest) cap)] ++ ext, ?_, ?_⟩
        · intro e he
          simp only [List.mem_append, List.mem_cons, List.mem_singleton, List.not_mem_nil,
            or_false] at he
          rcases he with (rfl | rfl) | he
          · rfl
          · rfl
          · exact hext e he
        · simp only [hb, if_true]
          rw [hb] at hres
          rcases hres with hres | hres
          · left
            rw [hres, List.append_assoc]
          · right
            rw [hres, List.append_assoc, bytesForwarded_append]
            have hlen : (rest.take FILE_BUFSIZE).length = FILE_BUFSIZE := by
              rw [List.length_take]
              rw [hb] at hle
              omega
            simp only [bytesForwarded_cons, bytesForwarded_nil, hlen]
            congr 1
            omega
      · refine ⟨[.fread (freadCount env i rest),
            .send .chunk (rest.take (freadCount env i rest))
              (sendReturn (freadCount env i rest) cap)], ?_, ?_⟩
        · intro e he
          simp only [List.mem_cons, List.mem_singleton, List.not_mem_nil, or_false] at he
          rcases he with rfl | rfl <;> rfl
        · right
          have hlen : (rest.take (freadCount env i rest)).length = freadCount env i rest := by
            rw [List.length_take]
            omega
          simp only [hb, if_false, bytesForwarded_cons, bytesForwarded_nil, hlen, Nat.add_zero,
            Nat.zero_add]
    | none =>
      refine ⟨[.fread (freadCount env i rest), .sendFailed .chunk,
        .stderr .fileSendError], ?_, ?_⟩
      · intro e he
        simp only [List.mem_cons, List.mem_singleton, List.not_mem_nil, or_false] at he
        rcases he with rfl | rfl | rfl <;> rfl
      · left
        rfl

theorem sends_header_inLoop (ext : List Event) (hin : ∀ e ∈ ext, e.inLoop = true) :
    sends .header ext = [] := by
  induction ext with
  | nil => rfl
  | cons e ext ih =>
    have he := hin e (List.mem_cons_self _ _)
    have ht := ih (fun x hx => hin x (List.mem_cons_of_mem _ hx))
    cases e with
    | send k d ret => cases k <;> simp_all [sends, Event.inLoop]
    | _ => simp_all [sends, Event.inLoop]

/-- When no read is cut short and no `send` returns a negative value, the loop
hands the whole of what is left of the file to `send`, in chunks of
`FILE_BUFSIZE` bytes and a last chunk of the remainder; when moreover every
`send` accepts a whole chunk, these are the bytes put on the connection. -/
theorem sendLoop_full (env : Env) (hread : ∀ j, FILE_BUFSIZE ≤ env.freadLimit j)
    (hsend : ∀ j, (env.chunkSend j).isSome = true) (n : Nat) :
    ∀ (rest : List Nat), rest.length = n → ∀ (i : Nat),
      ∃ ext, (∀ e ∈ ext, e.inLoop = true)
        ∧ ((∀ j cap, env.chunkSend j = some cap → FILE_BUFSIZE ≤ cap) → wireBytes ext = rest)
        ∧ (sends .chunk ext).map List.length
            = List.replicate (rest.length / FILE_BUFSIZE) FILE_BUFSIZE
                ++ [rest.length % FILE_BUFSIZE]
        ∧ freads ext = (sends .chunk ext).map List.length
        ∧ ∀ (total : Nat) (tr : List Event),
            sendLoop env i rest total tr = .done (total + rest.length) (tr ++ ext) := by
  induction n using Nat.strong_induction_on with
  | _ n ih =>
    intro rest hn i
    have hc := freadCount_full env hread i rest
    obtain ⟨cap, hcap⟩ := Option.isSome_iff_exists.1 (hsend i)
    by_cases hb : FILE_BUFSIZE ≤ rest.length
    · have hc1 : freadCount env i rest = FILE_BUFSIZE := by
        rw [hc]; exact Nat.min_eq_left hb
      have hlt : (rest.drop FILE_BUFSIZE).length < n := by
        simp only [List.length_drop]
        simp only [FILE_BUFSIZE] at hb ⊢
        omega
      obtain ⟨ext, hin, hw, hsz, hfr, hres⟩ :=
        ih _ hlt (rest.drop FILE_BUFSIZE) rfl (i + 1)
      have hlen : (rest.take FILE_BUFSIZE).length = FILE_BUFSIZE := by
        rw [List.length_take]; omega
      refine ⟨[.fread FILE_BUFSIZE,
          .send .chunk (rest.take FILE_BUFSIZE) (sendReturn FILE_BUFSIZE cap)] ++ ext,
        ?_, ?_, ?_, ?_, ?_⟩
      · intro e he
        simp only [List.mem_append, List.mem_cons, List.mem_singleton, List.not_mem_nil,
          or_false] at he
        rcases he with (rfl | rfl) | he
        · rfl
        · rfl
        · exact hin e he
      · intro hwhole
        have hret : sendReturn FILE_BUFSIZE cap = FILE_BUFSIZE :=
          Nat.min_eq_left (hwhole i cap hcap)
        rw [wireBytes_append, hw hwhole, hret]
        show ((rest.take FILE_BUFSIZE).take FILE_BUFSIZE ++ []) ++ rest.drop FILE_BUFSIZE = rest
        rw [List.append_nil, List.take_take, Nat.min_self, List.take_append_drop]
      · have hdiv : rest.length / FILE_BUFSIZE
            = (rest.length - FILE_BUFSIZE) / FILE_BUFSIZE + 1 := by
          simp only [FILE_BUFSIZE] at hb ⊢
          omega
        have hmod : rest.length % FILE_BUFSIZE
            = (rest.length - FILE_BUFSIZE) % FILE_BUFSIZE := by
          simp only [FILE_BUFSIZE] at hb ⊢
          omega
        rw [List.length_drop] at hsz
        rw [sends_append, List.map_append, hsz, hdiv, hmod, List.replicate_succ,
          List.cons_append]
        show [(rest.take FILE_BUFSIZE).length] ++ _ = _
        rw [hlen]
        rfl
      · rw [sends_append, freads_append, List.map_append, hfr]
        show [FILE_BUFSIZE] ++ _ = [(rest.take FILE_BUFSIZE).length] ++ _
        rw [hlen]
      · intro total tr
        rw [sendLoop]
        simp only [hcap, hc1, if_true]
        have hadd : total + FILE_BUFSIZE + (rest.length - FILE_BUFSIZE)
            = total + rest.length := by
          simp only [FILE_BUFSIZE] at hb ⊢
          omega
        rw [hres, List.append_assoc, List.length_drop, hadd]
    · have hlt : rest.length < FILE_BUFSIZE := Nat.lt_of_not_le hb
      have hc1 : freadCount env i rest = rest.length := by
        rw [hc]; exact Nat.min_eq_right (Nat.le_of_lt hlt)
      have hne : ¬ rest.length = FILE_BUFSIZE := Nat.ne_of_lt hlt
      refine ⟨[.fread rest.length, .send .chunk rest (sendReturn rest.length cap)],
        ?_, ?_, ?_, ?_, ?_⟩
      · intro e he
        simp only [List.mem_cons, List.mem_singleton, List.not_mem_nil, or_false] at he
        rcases he with rfl | rfl <;> rfl
      · intro hwhole
        have hret : sendReturn rest.length cap = rest.length :=
          Nat.min_eq_left (le_trans (Nat.le_of_lt hlt) (hwhole i cap hcap))
        show rest.take (sendReturn rest.length cap) ++ [] = rest
        rw [hret, List.append_nil, List.take_length]
      · have hdiv : rest.length / FILE_BUFSIZE = 0 := Nat.div_eq_of_lt hlt
        have hmod : rest.length % FILE_BUFSIZE = rest.length := Nat.mod_eq_of_lt hlt
        simp [sends, hdiv, hmod]
      · simp [sends, freads]
      · intro total tr
        rw [sendLoop]
        simp [hcap, hc1, hne]
/-! ## The comparison of the total with the size -/

theorem lineFeed_not_inLoop (ext : List Event) (hin : ∀ e ∈ ext, e.inLoop = true) :
    ∀ ret, Event.send .lineFeed [10] ret ∉ ext := by
  intro ret hmem
  have h := hin _ hmem
  simp [Event.inLoop] at h

theorem finish_total (env : Env) (S total : Nat) (tr : List Event)
    (h1 : bytesForwarded tr = total) (h2 : ∀ ret, Event.send .lineFeed [10] ret ∉ tr)
    (h : ∃ ret, Event.send .lineFeed [10] ret ∈ (finish env S total tr).trace) :
    ((finish env S total tr).status = EXIT_SUCCESS
        ∧ bytesForwarded (finish env S total tr).trace = S)
      ∨ ((finish env S total tr).status = EXIT_FAILURE
        ∧ bytesForwarded (finish env S total tr).trace ≠ S) := by
  unfold finish at h ⊢
  cases hlf : env.lfSend with
  | some cap =>
    by_cases ht : total = S
    · have h3 : bytesForwarded tr = S := h1.trans ht
      left
      simp [ht, bytesForwarded_append, bytesForwarded_cons, bytesForwarded_nil, h3]
    · right
      simp [ht, bytesForwarded_append, bytesForwarded_cons, bytesForwarded_nil, h1]
  | none => simp [hlf, h2] at h

theorem payload_total (env : Env) (S : Nat) (tr : List Event)
    (h1 : bytesForwarded tr = 0) (h2 : ∀ ret, Event.send .lineFeed [10] ret ∉ tr)
    (h : ∃ ret, Event.send .lineFeed [10] ret ∈ (payload env S tr).trace) :
    ((payload env S tr).status = EXIT_SUCCESS
        ∧ bytesForwarded (payload env S tr).trace = S)
      ∨ ((payload env S tr).status = EXIT_FAILURE
        ∧ bytesForwarded (payload env S tr).trace ≠ S) := by
  unfold payload at h ⊢
  cases hf : env.fopen with
  | none => simp [hf, h2] at h
  | some content =>
    simp only [hf] at h ⊢
    obtain ⟨ext, hin, hres | hres⟩ :=
      sendLoop_trace env content.length content rfl 0 0 (tr ++ [.fopen])
    · rw [hres] at h
      have := lineFeed_not_inLoop ext hin
      simp [h2, this] at h
    · rw [hres] at h ⊢
      have hlf := lineFeed_not_inLoop ext hin
      refine finish_total env S _ _ ?_ ?_ h
      · simp [bytesForwarded_append, bytesForwarded_cons, bytesForwarded_nil, h1]
      · intro ret
        simp [h2, hlf]

theorem header_total (cfg : Config) (name : CStr) (env : Env) (S : Nat) (buf : List Nat)
    (tr : List Event)
    (h1 : bytesForwarded tr = 0) (h2 : ∀ ret, Event.send .lineFeed [10] ret ∉ tr)
    (h : ∃ ret, Event.send .lineFeed [10] ret ∈ (header cfg name env S buf tr).trace) :
    ((header cfg name env S buf tr).status = EXIT_SUCCESS
        ∧ bytesForwarded (header cfg name env S buf tr).trace = S)
      ∨ ((header cfg name env S buf tr).status = EXIT_FAILURE
        ∧ bytesForwarded (header cfg name env S buf tr).trace ≠ S) := by
  unfold header at h ⊢
  cases hs : env.headerSend with
  | some cap =>
    simp only [hs] at h ⊢
    refine payload_total env S _ ?_ ?_ h
    · cases cfg.bVerbose <;>
        simp [bytesForwarded_append, bytesForwarded_cons, bytesForwarded_nil, h1]
    · intro ret
      cases cfg.bVerbose <;> simp [h2]
  | none => cases hv : cfg.bVerbose <;> simp [hs, hv, h2] at h

theorem connectAndIdentify_total (cfg : Config) (name : CStr) (env : Env) (S : Nat)
    (tr : List Event)
    (h1 : bytesForwarded tr = 0) (h2 : ∀ ret, Event.send .lineFeed [10] ret ∉ tr)
    (h : ∃ ret, Event.send .lineFeed [10] ret
      ∈ (connectAndIdentify cfg name env S tr).trace) :
    ((connectAndIdentify cfg name env S tr).status = EXIT_SUCCESS
        ∧ bytesForwarded (connectAndIdentify cfg name env S tr).trace = S)
      ∨ ((connectAndIdentify cfg name env S tr).status = EXIT_FAILURE
        ∧ bytesForwarded (connectAndIdentify cfg name env S tr).trace ≠ S) := by
  unfold connectAndIdentify at h ⊢
  by_cases hc : env.connectOk = true
  · cases hi : env.idnSend with
    | some cap =>
      cases hr : env.idnRecv with
      | none => simp [hc, hi, hr, h2] at h
      | some buf =>
        simp only [hc, hi, hr, if_true] at h ⊢
        refine header_total cfg name env S buf _ ?_ ?_ h
        · simp [bytesForwarded_append, bytesForwarded_cons, bytesForwarded_nil, h1]
        · intro ret
          simp [h2]
    | none => simp [hc, hi, h2] at h
  · simp [hc, h2] at h

theorem transfer_total (cfg : Config) (name : CStr) (env : Env)
    (h : ∃ ret, Event.send .lineFeed [10] ret ∈ (transfer cfg name env).trace) :
    ∃ S, env.lstat = some S ∧
      (((transfer cfg name env).status = EXIT_SUCCESS
          ∧ bytesForwarded (transfer cfg name env).trace = S)
        ∨ ((transfer cfg name env).status = EXIT_FAILURE
          ∧ bytesForwarded (transfer cfg name env).trace ≠ S)) := by
  unfold transfer at h ⊢
  cases hl : env.lstat with
  | none => cases hv : cfg.bVerbose <;> simp [hl, hv] at h
  | some S =>
    refine ⟨S, rfl, ?_⟩
    simp only [hl] at h ⊢
    refine connectAndIdentify_total cfg name env S _ ?_ ?_ h
    · cases cfg.bVerbose <;>
        simp [bytesForwarded_append, bytesForwarded_cons, bytesForwarded_nil]
    · intro ret
      cases cfg.bVerbose <;> simp

theorem parseOpts_error (opts : List Opt) (cfg : Config) (tr : List Event)
    (h : parseOpts opts cfg = .error tr) :
    tr = [.stderr .descriptionTooLong] ∨ tr = [.stderr .badFilename]
      ∨ tr = [.stderr .usage] := by
  induction opts generalizing cfg with
  | nil => simp [parseOpts] at h
  | cons o os ih =>
    simp only [parseOpts] at h
    cases ho : optStep cfg o with
    | ok cfg1 =>
      rw [ho] at h
      exact ih cfg1 h
    | error tr1 =>
      rw [ho] at h
      injection h with h
      subst h
      cases o with
      | verbose => simp [optStep] at ho
      | floppy => simp [optStep] at ho
      | address a => simp [optStep] at ho
      | description d =>
        simp only [optStep] at ho
        split at ho
        · injection ho with ho
          simp [← ho]
        · simp at ho
      | name n =>
        simp only [optStep] at ho
        split at ho
        · injection ho with ho
          simp [← ho]
        · simp at ho
      | unrecognised =>
        simp only [optStep] at ho
        injection ho with ho
        simp [← ho]

/-- C5: in every run in which the trailing line feed is sent (so that the
header and every chunk were sent without error before it), `lstat` had
returned a size `S`, and the exit status is `EXIT_SUCCESS` exactly when the
total of the bytes read and forwarded equals `S`; on every mismatch, in
either direction, the status is `EXIT_FAILURE`. -/
theorem C5_exit_status_matches_total (opts : List Opt) (args : List CStr) (env : Env)
    (h : ∃ ret, Event.send .lineFeed [10] ret ∈ (main opts args env).trace) :
    ∃ S, env.lstat = some S ∧
      ((main opts args env).status = EXIT_SUCCESS
        ↔ bytesForwarded (main opts args env).trace = S) ∧
      (bytesForwarded (main opts args env).trace ≠ S →
        (main opts args env).status = EXIT_FAILURE) := by
  have key : ∃ S, env.lstat = some S ∧
      (((main opts args env).status = EXIT_SUCCESS
          ∧ bytesForwarded (main opts args env).trace = S)
        ∨ ((main opts args env).status = EXIT_FAILURE
          ∧ bytesForwarded (main opts args env).trace ≠ S)) := by
    unfold main at h ⊢
    cases hp : parseOpts opts {} with
    | error tr =>
      rw [hp] at h
      rcases parseOpts_error opts {} tr hp with rfl | rfl | rfl <;> simp at h
    | ok cfg =>
      simp only [hp] at h ⊢
      match args, h with
      | [], h => simp at h
      | _ :: _ :: _, h => simp at h
      | [src], h =>
        simp only at h ⊢
        cases hip : cfg.sIPaddr with
        | none => simp [hip] at h
        | some ip =>
          cases hnm : cfg.sFileName with
          | none => simp [hip, hnm] at h
          | some name =>
            simp only [hip, hnm] at h ⊢
            exact transfer_total cfg name env h
  obtain ⟨S, hS, hcase⟩ := key
  refine ⟨S, hS, ?_, ?_⟩
  · rcases hcase with ⟨h1, h2⟩ | ⟨h1, h2⟩
    · exact ⟨fun _ => h2, fun _ => h1⟩
    · constructor
      · intro h3
        rw [h1] at h3
        exact absurd h3 (by decide)
      · intro h3
        exact absurd h3 h2
  · intro hne
    rcases hcase with ⟨_, h2⟩ | ⟨h1, _⟩
    · exact absurd h2 hne
    · exact h1

/-! ## The undisturbed run -/

theorem transfer_undisturbed (cfg : Config) (name : CStr) (env : Env) (F buf : List Nat)
    (henv : Undisturbed env F buf) :
    ∃ ext, (sends .chunk ext).map List.length
          = List.replicate (F.length / FILE_BUFSIZE) FILE_BUFSIZE ++ [F.length % FILE_BUFSIZE]
      ∧ freads ext = (sends .chunk ext).map List.length
      ∧ (transfer cfg name env).status = EXIT_SUCCESS
      ∧ (WholeSends env → wireBytes (afterHeader (transfer cfg name env).trace) = F ++ [10])
      ∧ sends .chunk (transfer cfg name env).trace = sends .chunk ext
      ∧ freads (transfer cfg name env).trace = freads ext
      ∧ sends .header (transfer cfg name env).trace
          = [headerSent buf name cfg.bFloppy cfg.sFileDescription F.length] := by
  obtain ⟨h1, h2, h3, h4, h5, h6, h7, h8, h9⟩ := henv
  obtain ⟨c3, h3⟩ := Option.isSome_iff_exists.1 h3
  obtain ⟨c5, h5⟩ := Option.isSome_iff_exists.1 h5
  obtain ⟨c9, h9⟩ := Option.isSome_iff_exists.1 h9
  obtain ⟨ext, hin, hw, hsz, hfr, hres⟩ := sendLoop_full env h7 h8 F.length F rfl 0
  have hh := sends_header_inLoop ext hin
  refine ⟨ext, hsz, hfr, ?_⟩
  simp only [transfer, connectAndIdentify, header, payload, h1, h2, h3, h4, h5, h6, if_true,
    hres, finish, h9, Nat.zero_add, ne_eq, not_true_eq_false, if_false]
  refine ⟨trivial, ?_, ?_, ?_, ?_⟩
  · intro hwhole
    have hlf : sendReturn 1 c9 = 1 := Nat.min_eq_left (hwhole.2 c9 h9)
    have hwe := hw hwhole.1
    cases cfg.bVerbose <;>
      simp [afterHeader, wireBytes_append, wireBytes, hwe, hlf]
  · cases cfg.bVerbose <;> simp [sends_append, sends]
  · cases cfg.bVerbose <;> simp [freads_append, freads]
  · cases cfg.bVerbose <;> simp [sends_append, sends, hh]

theorem main_undisturbed (opts : List Opt) (cfg : Config) (ip name src : CStr) (env : Env)
    (hopts : parseOpts opts {} = .ok cfg) (hip : cfg.sIPaddr = some ip)
    (hname : cfg.sFileName = some name) :
    main opts [src] env = transfer cfg name env := by
  simp [main, hopts, hip, hname]

/-- When the file holds the same `S` bytes `F` throughout, no read is cut
short, no `send` fails and every `send` of the payload accepts all the bytes
it is given, the bytes put on the connection after the header are `F`
followed by one byte `0x0A`: `S + 1` bytes, whatever `S` is. -/
theorem payload_of_whole_sends (opts : List Opt) (cfg : Config)
    (ip name src : CStr) (env : Env) (F buf : List Nat)
    (hopts : parseOpts opts {} = .ok cfg) (hip : cfg.sIPaddr = some ip)
    (hname : cfg.sFileName = some name) (henv : Undisturbed env F buf)
    (hwhole : WholeSends env) :
    wireBytes (afterHeader (main opts [src] env).trace) = F ++ [10]
      ∧ (wireBytes (afterHeader (main opts [src] env).trace)).length = F.length + 1
      ∧ (main opts [src] env).status = EXIT_SUCCESS := by
  rw [main_undisturbed opts cfg ip name src env hopts hip hname]
  obtain ⟨ext, _, _, hst, hbytes, _, _, _⟩ := transfer_undisturbed cfg name env F buf henv
  refine ⟨hbytes hwhole, ?_, hst⟩
  rw [hbytes hwhole]
  simp

/-- C10: when the file holds the same `S` bytes throughout, no read is cut
short and no `send` returns a negative value, the loop makes `S / 10000 + 1`
iterations: each `fread` but the last returns 10000 bytes and the last returns
`S % 10000` (zero when `S` is a multiple of 10000), and every iteration
hands to `send` what its `fread` returned. -/
theorem C10_loop_iterations (opts : List Opt) (cfg : Config)
    (ip name src : CStr) (env : Env) (F buf : List Nat)
    (hopts : parseOpts opts {} = .ok cfg) (hip : cfg.sIPaddr = some ip)
    (hname : cfg.sFileName = some name) (henv : Undisturbed env F buf) :
    freads (main opts [src] env).trace
        = List.replicate (F.length / 10000) 10000 ++ [F.length % 10000]
      ∧ (sends .chunk (main opts [src] env).trace).map List.length
        = freads (main opts [src] env).trace
      ∧ (freads (main opts [src] env).trace).length = F.length / 10000 + 1 := by
  rw [main_undisturbed opts cfg ip name src env hopts hip hname]
  obtain ⟨ext, hsz, hfr, _, _, hch, hfre, _⟩ := transfer_undisturbed cfg name env F buf henv
  have h1 : freads (transfer cfg name env).trace
      = List.replicate (F.length / 10000) 10000 ++ [F.length % 10000] := by
    rw [hfre, hfr, hsz]
    rfl
  refine ⟨h1, ?_, ?_⟩
  · rw [hch, hfre, hfr]
  · rw [h1]
    simp

/-! ## The header -/

theorem decDigitsAux_fuel (f1 : Nat) :
    ∀ (f2 n : Nat), n < f1 → n < f2 → decDigitsAux f1 n = decDigitsAux f2 n := by
  induction f1 with
  | zero => intro f2 n h; omega
  | succ f1 ih =>
    intro f2 n h1 h2
    cases f2 with
    | zero => omega
    | succ f2 =>
      simp only [decDigitsAux]
      by_cases hn : n < 10
      · simp [hn]
      · simp only [hn, if_false]
        rw [ih f2 (n / 10) (by omega) (by omega)]

theorem decDigits_lt (n : Nat) (h : n < 10) : decDigits n = [48 + n] := by
  simp [decDigits, decDigitsAux, h]

theorem decDigits_ge (n : Nat) (h : 10 ≤ n) :
    decDigits n = decDigits (n / 10) ++ [48 + n % 10] := by
  have hn : ¬ n < 10 := by omega
  have e : decDigitsAux (n + 1) n = decDigitsAux n (n / 10) ++ [48 + n % 10] := by
    simp only [decDigitsAux, hn, if_false]
  unfold decDigits
  rw [e, decDigitsAux_fuel n (n / 10 + 1) (n / 10) (by omega) (by omega)]

theorem fmt_d_zero_succ (w n : Nat) (hw : 1 ≤ w) :
    fmt_d true (w + 1) n = fmt_d true w (n / 10) ++ [48 + n % 10] := by
  unfold fmt_d
  by_cases hn : n < 10
  · have h0 : n / 10 = 0 := by omega
    have hm : n % 10 = n := by omega
    rw [decDigits_lt n hn, h0, hm, decDigits_lt 0 (by omega)]
    obtain ⟨v, rfl⟩ : ∃ v, w = v + 1 := ⟨w - 1, by omega⟩
    simp [List.replicate_succ']
  · rw [decDigits_ge n (by omega)]
    simp [List.append_assoc]

theorem fmt_d_zero_one (n : Nat) (h : n < 10) : fmt_d true 1 n = [48 + n] := by
  simp [fmt_d, decDigits_lt n h]

theorem fmt_d_eight (n : Nat) (h : n ≤ 99999999) : fmt_d true 8 n = decimal8 n := by
  rw [fmt_d_zero_succ 7 n (by omega), fmt_d_zero_succ 6 _ (by omega),
    fmt_d_zero_succ 5 _ (by omega), fmt_d_zero_succ 4 _ (by omega),
    fmt_d_zero_succ 3 _ (by omega), fmt_d_zero_succ 2 _ (by omega),
    fmt_d_zero_succ 1 _ (by omega), fmt_d_zero_one _ (by omega)]
  simp only [decimal8, List.cons_append, List.nil_append, List.cons.injEq, and_true]
  omega

theorem fmt_d_flag (b : Bool) :
    fmt_d false 1 (if b then 1 else 0) = [48 + (if b then 1 else 0)] := by
  cases b <;> decide

theorem decimal8_digits (n : Nat) : ∀ c ∈ decimal8 n, 48 ≤ c ∧ c ≤ 57 := by
  intro c hc
  simp only [decimal8, List.mem_cons, List.mem_singleton, List.not_mem_nil, or_false] at hc
  rcases hc with rfl | rfl | rfl | rfl | rfl | rfl | rfl | rfl <;> omega

theorem digitsValue_decimal8 (n : Nat) (h : n ≤ 99999999) : digitsValue (decimal8 n) = n := by
  simp only [digitsValue, decimal8, List.foldl, Nat.add_sub_cancel_left, Nat.mul_zero,
    Nat.zero_add]
  omega

theorem takeWhile_until (p : Nat → Bool) (l r : List Nat) (y : Nat)
    (h : ∀ x ∈ l, p x = true) (hy : p y = false) : (l ++ y :: r).takeWhile p = l := by
  induction l with
  | nil => simp [List.takeWhile, hy]
  | cons a l ih =>
    have ha : p a = true := h a (List.mem_cons_self _ _)
    have hl := ih (fun x hx => h x (List.mem_cons_of_mem _ hx))
    simp [List.takeWhile, ha, hl]

theorem takeWhile_until_nul (l r : List Nat) (h : ∀ x ∈ l, x ≠ 0) :
    (l ++ 0 :: r).takeWhile (· ≠ 0) = l :=
  takeWhile_until _ l r 0 (fun x hx => by simpa using h x hx) (by simp)

/-- The `snprintf` and the `strlen` of lines 223-241 on a formatted text that
has no NUL before its last byte and fits the buffer: the bytes sent are the
text with that one NUL. -/
theorem sent_of_text (buf0 text : List Nat) (h0 : ∀ x ∈ text, x ≠ 0)
    (hlen : text.length + 1 ≤ STRING_BUFSIZE - 1) :
    (snprintf buf0 STRING_BUFSIZE (text ++ [0])).take
        (strlen (bufString (snprintf buf0 STRING_BUFSIZE (text ++ [0]))) + 1)
      = text ++ [0] := by
  have htake : (text ++ [0]).take (STRING_BUFSIZE - 1) = text ++ [0] := by
    apply List.take_of_length_le
    simpa using hlen
  have hbuf : snprintf buf0 STRING_BUFSIZE (text ++ [0])
      = text ++ 0 :: (0 :: buf0.drop (text.length + 1 + 1)) := by
    simp [snprintf, htake]
  rw [hbuf, bufString, takeWhile_until_nul text _ h0, strlen]
  rw [show text ++ 0 :: (0 :: buf0.drop (text.length + 1 + 1))
      = (text ++ [0]) ++ (0 :: buf0.drop (text.length + 1 + 1)) by simp]
  rw [List.take_left' (by simp)]

theorem name_length_le (name : CStr) (h : badFileName name = false) : name.length ≤ 12 := by
  rcases (badFileName_eq_false name).1 h with ⟨_, _, h3⟩ | ⟨_, h3⟩ <;> omega

theorem ascii_ne_zero_download : ∀ x ∈ ascii ":mmemory:download '", x ≠ 0 := by decide

theorem ascii_ne_zero_internal : ∀ x ∈ ascii "',internal", x ≠ 0 := by decide

theorem ascii_ne_zero_quote : ∀ x ∈ ascii ",'", x ≠ 0 := by decide

theorem ascii_ne_zero_count : ∀ x ∈ ascii "',-15614,#8", x ≠ 0 := by decide

/-- C1: for an accepted name, a description of at most 32 characters, either
value of the floppy flag and a size `S` with `S + 1 <= 99999999`, the bytes
handed to the `send` of the header are the text
`:mmemory:download '<name>',internal<b>,'<description>',-15614,#8<S+1 in 8 digits>`
followed by one zero byte and nothing else; they are the whole output of the
format, at most 96 bytes, so the 100-byte buffer truncates nothing. -/
theorem C1_header_bytes (buf0 : List Nat) (name desc : CStr) (b : Bool) (S : Nat)
    (hname : badFileName name = false) (hdesc : desc.length ≤ 32)
    (hn0 : ∀ x ∈ name, x ≠ 0) (hd0 : ∀ x ∈ desc, x ≠ 0) (hS : S + 1 ≤ 99999999) :
    headerSent buf0 name b desc S
        = ascii ":mmemory:download '" ++ name ++ ascii "',internal"
            ++ [48 + (if b then 1 else 0)] ++ ascii ",'" ++ desc ++ ascii "',-15614,#8"
            ++ decimal8 (S + 1) ++ [0]
      ∧ headerSent buf0 name b desc S = headerText name b desc S
      ∧ (headerSent buf0 name b desc S).length ≤ 96 := by
  have hnl := name_length_le name hname
  have hdl : desc.length ≤ 32 := hdesc
  have htext : headerText name b desc S
      = (ascii ":mmemory:download '" ++ name ++ ascii "',internal"
            ++ [48 + (if b then 1 else 0)] ++ ascii ",'" ++ desc ++ ascii "',-15614,#8"
            ++ decimal8 (S + 1)) ++ [0] := by
    rw [headerText, fmt_d_flag, fmt_d_eight (S + 1) hS]
  have hlen : (ascii ":mmemory:download '" ++ name ++ ascii "',internal"
            ++ [48 + (if b then 1 else 0)] ++ ascii ",'" ++ desc ++ ascii "',-15614,#8"
            ++ decimal8 (S + 1)).length = 51 + name.length + desc.length := by
    simp only [List.length_append, List.length_singleton]
    have e1 : (ascii ":mmemory:download '").length = 19 := by decide
    have e2 : (ascii "',internal").length = 10 := by decide
    have e3 : (ascii ",'").length = 2 := by decide
    have e4 : (ascii "',-15614,#8").length = 11 := by decide
    have e5 : (decimal8 (S + 1)).length = 8 := rfl
    rw [e1, e2, e3, e4, e5]
    omega
  have h0 : ∀ x ∈ ascii ":mmemory:download '" ++ name ++ ascii "',internal"
            ++ [48 + (if b then 1 else 0)] ++ ascii ",'" ++ desc ++ ascii "',-15614,#8"
            ++ decimal8 (S + 1), x ≠ 0 := by
    intro x hx
    simp only [List.mem_append, List.mem_singleton] at hx
    rcases hx with ((((((hx | hx) | hx) | hx) | hx) | hx) | hx) | hx
    · exact ascii_ne_zero_download x hx
    · exact hn0 x hx
    · exact ascii_ne_zero_internal x hx
    · subst hx; omega
    · exact ascii_ne_zero_quote x hx
    · exact hd0 x hx
    · exact ascii_ne_zero_count x hx
    · have := decimal8_digits (S + 1) x hx
      omega
  have hsent : headerSent buf0 name b desc S
      = (ascii ":mmemory:download '" ++ name ++ ascii "',internal"
            ++ [48 + (if b then 1 else 0)] ++ ascii ",'" ++ desc ++ ascii "',-15614,#8"
            ++ decimal8 (S + 1)) ++ [0] := by
    unfold headerSent
    simp only [htext]
    apply sent_of_text buf0 _ h0
    rw [hlen]
    simp only [STRING_BUFSIZE]
    omega
  refine ⟨hsent, hsent.trans htext.symm, ?_⟩
  rw [hsent, List.length_append, hlen]
  simp only [List.length_singleton]
  omega

/-- C3, for sizes within eight digits: for every size `S` with `S + 1 <= 99999999`, the field after
`#8` in the formatted header is exactly 8 decimal digits whose value is
`S + 1`, padded on the left with `'0'`. -/
theorem C3_count_field_eight_digits (name desc : CStr) (b : Bool) (S : Nat)
    (hS : S + 1 ≤ 99999999) :
    (byteCountField (headerText name b desc S) name desc).length = 8
      ∧ (∀ c ∈ byteCountField (headerText name b desc S) name desc, 48 ≤ c ∧ c ≤ 57)
      ∧ digitsValue (byteCountField (headerText name b desc S) name desc) = S + 1
      ∧ byteCountField (headerText name b desc S) name desc = decimal8 (S + 1) := by
  have hfield : byteCountField (headerText name b desc S) name desc = decimal8 (S + 1) := by
    have htext : headerText name b desc S
        = (ascii ":mmemory:download '" ++ name ++ ascii "',internal"
              ++ fmt_d false 1 (if b then 1 else 0) ++ ascii ",'" ++ desc
              ++ ascii "',-15614,#8") ++ (decimal8 (S + 1) ++ 0 :: []) := by
      rw [headerText, fmt_d_eight (S + 1) hS]
      simp only [List.append_assoc]
    have hpre : (ascii ":mmemory:download '" ++ name ++ ascii "',internal"
              ++ fmt_d false 1 (if b then 1 else 0) ++ ascii ",'" ++ desc
              ++ ascii "',-15614,#8").length
        = (ascii ":mmemory:download '").length + name.length
            + (ascii "',internal").length + 1 + (ascii ",'").length + desc.length
            + (ascii "',-15614,#8").length := by
      rw [fmt_d_flag]
      simp only [List.length_append, List.length_singleton]
    unfold byteCountField
    rw [htext, ← hpre, List.drop_left]
    exact takeWhile_until_nul _ _ (fun x hx => by
      have := decimal8_digits (S + 1) x hx
      omega)
  rw [hfield]
  exact ⟨rfl, decimal8_digits (S + 1), digitsValue_decimal8 (S + 1) hS, rfl⟩

/-! ## Exits of the option loop -/

theorem main_parse_error (opts : List Opt) (args : List CStr) (env : Env)
    (tr : List Event) (h : parseOpts opts {} = .error tr) :
    main opts args env = ⟨EXIT_FAILURE, tr⟩ := by
  simp [main, h]

theorem parseOpts_long_description (opts : List Opt) (d : CStr)
    (hm : Opt.description d ∈ opts) (hl : 33 ≤ d.length) :
    ∀ cfg, ∃ tr, parseOpts opts cfg = .error tr := by
  induction opts with
  | nil => simp at hm
  | cons o os ih =>
    intro cfg
    simp only [parseOpts]
    cases ho : optStep cfg o with
    | error tr => exact ⟨tr, rfl⟩
    | ok cfg1 =>
      rcases List.mem_cons.1 hm with heq | hmem
      · subst heq
        have hlong : descriptionTooLong d = true := by
          simp [descriptionTooLong, strlen]
          omega
        simp [optStep, hlong] at ho
      · exact ih hmem cfg1

/-- C6: the `-d` validation accepts a description exactly when it has at most
32 characters; a run that is given a description of 33 characters or more
ends with `EXIT_FAILURE` and its trace holds no event of the socket: no
`socket`, no `connect`, no `send`. -/
theorem C6_description_validation (cfg : Config) (d : CStr) :
    (accepts cfg (.description d) ↔ d.length ≤ 32)
      ∧ (33 ≤ d.length → ∀ (opts : List Opt) (args : List CStr) (env : Env),
          Opt.description d ∈ opts →
            (main opts args env).status = EXIT_FAILURE
              ∧ ∀ e ∈ (main opts args env).trace, e.isNetwork = false) := by
  constructor
  · unfold accepts optStep
    by_cases h : d.length ≤ 32
    · have hd : descriptionTooLong d = false := by
        simp [descriptionTooLong, strlen]
        omega
      simp [hd, h]
    · have hd : descriptionTooLong d = true := by
        simp [descriptionTooLong, strlen]
        omega
      simp [hd, h]
  · intro hl opts args env hm
    obtain ⟨tr, htr⟩ := parseOpts_long_description opts d hm hl {}
    rw [main_parse_error opts args env tr htr]
    refine ⟨rfl, ?_⟩
    rcases parseOpts_error opts {} tr htr with rfl | rfl | rfl <;>
      simp [Event.isNetwork]

/-- C7, at the name `A.BCDEFGHIJK`: the name `A.BCDEFGHIJK` has a `'.'`, one
character before it and 12 characters in all, so the `-n` validation accepts
it; its extension has 10 characters. -/
theorem C7_long_extension_accepted :
    optStep {} (.name (ascii "A.BCDEFGHIJK"))
        = .ok { sFileName := some (ascii "A.BCDEFGHIJK") }
      ∧ 46 ∈ ascii "A.BCDEFGHIJK"
      ∧ (extension (ascii "A.BCDEFGHIJK")).length = 10 := by
  refine ⟨rfl, by decide, by decide⟩

/-- C8, at a long description and at a long name: a description of 33 characters and a
name of 12 characters without a `'.'` each end the run with `EXIT_FAILURE`
and one message, and the usage text is not written; the sibling checks (no
file argument, two file arguments, no address or name) do write it. -/
theorem C8_length_violations_write_no_usage (args : List CStr) (env : Env) :
    main [.description (List.replicate 33 65)] args env
        = ⟨EXIT_FAILURE, [.stderr .descriptionTooLong]⟩
      ∧ main [.name (ascii "ABCDEFGHIJKL")] args env
        = ⟨EXIT_FAILURE, [.stderr .badFilename]⟩
      ∧ main exampleOpts [] env = ⟨EXIT_FAILURE, [.stderr .missingFile, .stderr .usage]⟩
      ∧ main exampleOpts [ascii "a.R", ascii "b.R"] env
        = ⟨EXIT_FAILURE, [.stderr .tooManyArguments, .stderr .usage]⟩
      ∧ main [.name (ascii "I6809")] [ascii "a.R"] env
        = ⟨EXIT_FAILURE, [.stderr .addressAndNameRequired, .stderr .usage]⟩
      ∧ main [.address (ascii "192.168.1.16")] [ascii "a.R"] env
        = ⟨EXIT_FAILURE, [.stderr .addressAndNameRequired, .stderr .usage]⟩ := by
  refine ⟨rfl, rfl, rfl, rfl, rfl, rfl⟩

theorem exampleOpts_parsed : parseOpts exampleOpts {} = .ok exampleConfig := rfl

theorem quietEnv_undisturbed (F : List Nat) :
    Undisturbed (quietEnv F.length F) F exampleReply :=
  ⟨rfl, rfl, rfl, rfl, rfl, rfl, fun _ => Nat.le_refl _, fun _ => rfl, rfl⟩

/-- C9, at two error exits: when `connect` fails, the run ends
with `EXIT_FAILURE` after `socket` and without `close`; when the file is
shorter than `lstat` said, the run ends with `EXIT_FAILURE` after `fclose`
but without `close`. -/
theorem C9_socket_not_closed_on_error_exits :
    main exampleOpts [ascii "I6809.R"] refusedEnv
        = ⟨EXIT_FAILURE, [.socket, .setsockopt, .setsockopt, .connectFailed,
            .stderr .connectionError]⟩
      ∧ (main exampleOpts [ascii "I6809.R"] truncatedEnv).status = EXIT_FAILURE
      ∧ afterHeader (main exampleOpts [ascii "I6809.R"] truncatedEnv).trace
        = [.fopen, .fread 3, .send .chunk [1, 2, 3] 3, .send .lineFeed [10] 1,
            .stderr (.shortFileRead 3 5), .fclose]
      ∧ Event.socket ∈ (main exampleOpts [ascii "I6809.R"] truncatedEnv).trace
      ∧ Event.close ∉ (main exampleOpts [ascii "I6809.R"] truncatedEnv).trace := by
  have hrun : main exampleOpts [ascii "I6809.R"] truncatedEnv
      = ⟨EXIT_FAILURE, [.socket, .setsockopt, .setsockopt, .connected,
          .send .idnQuery (ascii "*IDN?\r\n") 7, .recv,
          .stdout (bufString exampleReply ++ [10]),
          .send .header (headerSent exampleReply (ascii "I6809") false
              (ascii "MC6809 Inverse Assembler") 5)
            (sendReturn (headerSent exampleReply (ascii "I6809") false
              (ascii "MC6809 Inverse Assembler") 5).length FILE_BUFSIZE),
          .fopen, .fread 3, .send .chunk [1, 2, 3] 3, .send .lineFeed [10] 1,
          .stderr (.shortFileRead 3 5), .fclose]⟩ := by
    rw [main_undisturbed exampleOpts exampleConfig (ascii "192.168.1.16") (ascii "I6809")
      (ascii "I6809.R") truncatedEnv rfl rfl rfl]
    simp [transfer, connectAndIdentify, header, payload, finish, sendLoop, freadCount,
      truncatedEnv, quietEnv, exampleConfig, FILE_BUFSIZE, sendReturn, strlen, ascii,
      EXIT_FAILURE]
  refine ⟨rfl, ?_, ?_, ?_, ?_⟩
  · rw [hrun]
  · rw [hrun]; rfl
  · rw [hrun]; simp
  · rw [hrun]; simp

/-! ## What the error exits leave open -/

theorem close_not_inLoop (ext : List Event) (hin : ∀ e ∈ ext, e.inLoop = true) :
    Event.close ∉ ext := by
  intro hmem
  have h := hin _ hmem
  simp [Event.inLoop] at h

theorem finish_close (env : Env) (S total : Nat) (tr : List Event) (h : Event.close ∉ tr) :
    Event.close ∈ (finish env S total tr).trace
      ↔ (finish env S total tr).status = EXIT_SUCCESS := by
  unfold finish
  cases hlf : env.lfSend with
  | some cap =>
    by_cases ht : total = S
    · simp [ht]
    · simp [ht, h, EXIT_SUCCESS, EXIT_FAILURE]
  | none => simp [h, EXIT_SUCCESS, EXIT_FAILURE]

theorem payload_close (env : Env) (S : Nat) (tr : List Event) (h : Event.close ∉ tr) :
    Event.close ∈ (payload env S tr).trace ↔ (payload env S tr).status = EXIT_SUCCESS := by
  unfold payload
  cases hf : env.fopen with
  | none => simp [h, EXIT_SUCCESS, EXIT_FAILURE]
  | some content =>
    obtain ⟨ext, hin, hres | hres⟩ :=
      sendLoop_trace env content.length content rfl 0 0 (tr ++ [.fopen])
    · have hc := close_not_inLoop ext hin
      simp [hres, h, hc, EXIT_SUCCESS, EXIT_FAILURE]
    · have hc := close_not_inLoop ext hin
      simp only [hres]
      exact finish_close env S _ _ (by simp [h, hc])

theorem header_close (cfg : Config) (name : CStr) (env : Env) (S : Nat) (buf : List Nat)
    (tr : List Event) (h : Event.close ∉ tr) :
    Event.close ∈ (header cfg name env S buf tr).trace
      ↔ (header cfg name env S buf tr).status = EXIT_SUCCESS := by
  unfold header
  cases hs : env.headerSend with
  | some cap =>
    simp only
    exact payload_close env S _ (by cases cfg.bVerbose <;> simp [h])
  | none => cases cfg.bVerbose <;> simp [h, EXIT_SUCCESS, EXIT_FAILURE]

theorem connectAndIdentify_close (cfg : Config) (name : CStr) (env : Env) (S : Nat)
    (tr : List Event) (h : Event.close ∉ tr) :
    Event.close ∈ (connectAndIdentify cfg name env S tr).trace
      ↔ (connectAndIdentify cfg name env S tr).status = EXIT_SUCCESS := by
  unfold connectAndIdentify
  by_cases hc : env.connectOk = true
  · cases hi : env.idnSend with
    | some cap =>
      cases hr : env.idnRecv with
      | none => simp [hc, h, EXIT_SUCCESS, EXIT_FAILURE]
      | some buf =>
        simp only [hc, if_true]
        exact header_close cfg name env S buf _ (by simp [h])
    | none => simp [hc, h, EXIT_SUCCESS, EXIT_FAILURE]
  · simp [hc, h, EXIT_SUCCESS, EXIT_FAILURE]

theorem transfer_close (cfg : Config) (name : CStr) (env : Env) :
    Event.close ∈ (transfer cfg name env).trace
      ↔ (transfer cfg name env).status = EXIT_SUCCESS := by
  unfold transfer
  cases hl : env.lstat with
  | none => cases cfg.bVerbose <;> simp [EXIT_SUCCESS, EXIT_FAILURE]
  | some S =>
    simp only
    exact connectAndIdentify_close cfg name env S _ (by cases cfg.bVerbose <;> simp)

/-- In every run, `close (sockfd)` is called exactly when the run ends with
`EXIT_SUCCESS`: no exit with `EXIT_FAILURE` closes the socket. -/
theorem socket_closed_iff_success (opts : List Opt) (args : List CStr) (env : Env) :
    Event.close ∈ (main opts args env).trace
      ↔ (main opts args env).status = EXIT_SUCCESS := by
  unfold main
  cases hp : parseOpts opts {} with
  | error tr =>
    rcases parseOpts_error opts {} tr hp with rfl | rfl | rfl <;>
      simp [EXIT_SUCCESS, EXIT_FAILURE]
  | ok cfg =>
    match args with
    | [] => simp [EXIT_SUCCESS, EXIT_FAILURE]
    | _ :: _ :: _ => simp [EXIT_SUCCESS, EXIT_FAILURE]
    | [src] =>
      cases hip : cfg.sIPaddr with
      | none => simp [hip, EXIT_SUCCESS, EXIT_FAILURE]
      | some ip =>
        cases hnm : cfg.sFileName with
        | none => simp [hip, hnm, EXIT_SUCCESS, EXIT_FAILURE]
        | some name =>
          simp only [hip, hnm]
          exact transfer_close cfg name env

/-- Every exit of the argument checks (an option that the option loop
rejects, no file argument or more than one, no address or no name) ends the
run with `EXIT_FAILURE` and a trace without any event of the socket. -/
theorem validation_exit_no_network (opts : List Opt) (args : List CStr) (env : Env)
    (h : (∃ tr, parseOpts opts {} = .error tr) ∨ args.length ≠ 1
      ∨ ∃ cfg, parseOpts opts {} = .ok cfg ∧ (cfg.sIPaddr = none ∨ cfg.sFileName = none)) :
    (main opts args env).status = EXIT_FAILURE
      ∧ ∀ e ∈ (main opts args env).trace, e.isNetwork = false := by
  unfold main
  cases hp : parseOpts opts {} with
  | error tr =>
    rcases parseOpts_error opts {} tr hp with rfl | rfl | rfl <;> simp [Event.isNetwork]
  | ok cfg =>
    match args, h with
    | [], _ => simp [Event.isNetwork]
    | _ :: _ :: _, _ => simp [Event.isNetwork]
    | [src], h =>
      rcases h with ⟨tr, htr⟩ | hlen | ⟨cfg1, hcfg, hmiss⟩
      · rw [hp] at htr
        cases htr
      · simp at hlen
      · rw [hp] at hcfg
        injection hcfg with hcfg
        subst hcfg
        rcases hmiss with hm | hm
        · simp [hm, Event.isNetwork]
        · cases hip : cfg.sIPaddr <;> simp [hm, Event.isNetwork]

/-! ## The properties at concrete inputs -/

/-- C1 at a concrete input: the header for the name `I6809`, the default
description and a file of 1234 bytes, formatted into a buffer full of `'A'`. -/
theorem C1_header_bytes_witness :
    badFileName (ascii "I6809") = false
      ∧ headerSent (List.replicate 100 65) (ascii "I6809") false
          (ascii "Inverse Assembler") 1234
        = ascii ":mmemory:download 'I6809',internal0,'Inverse Assembler',-15614,#800001235"
            ++ [0] :=
  ⟨by decide,
   (C1_header_bytes (List.replicate 100 65) (ascii "I6809") (ascii "Inverse Assembler") false
      1234 (by decide) (by decide) (by decide) (by decide) (by decide)).1.trans (by decide)⟩

/-- C2, at a `send` that returns a short count: the file holds the bytes
1, 2, 3 throughout, every read is full and no `send` returns a negative
value, but the `send` of the chunk returns 2. The program does not look at
the count: the run ends with `EXIT_SUCCESS`, and the bytes put on the
connection after the header are 1, 2 and the line feed, not the file followed
by the line feed. -/
theorem C2_short_send_drops_bytes :
    Undisturbed shortSendEnv [1, 2, 3] exampleReply
      ∧ (main exampleOpts [ascii "I6809.R"] shortSendEnv).status = EXIT_SUCCESS
      ∧ afterHeader (main exampleOpts [ascii "I6809.R"] shortSendEnv).trace
        = [.fopen, .fread 3, .send .chunk [1, 2, 3] 2, .send .lineFeed [10] 1,
            .close, .fclose]
      ∧ wireBytes (afterHeader (main exampleOpts [ascii "I6809.R"] shortSendEnv).trace)
        = [1, 2, 10]
      ∧ wireBytes (afterHeader (main exampleOpts [ascii "I6809.R"] shortSendEnv).trace)
        ≠ [1, 2, 3] ++ [10] := by
  have hrun : main exampleOpts [ascii "I6809.R"] shortSendEnv
      = ⟨EXIT_SUCCESS, [.socket, .setsockopt, .setsockopt, .connected,
          .send .idnQuery (ascii "*IDN?\r\n") 7, .recv,
          .stdout (bufString exampleReply ++ [10]),
          .send .header (headerSent exampleReply (ascii "I6809") false
              (ascii "MC6809 Inverse Assembler") 3)
            (sendReturn (headerSent exampleReply (ascii "I6809") false
              (ascii "MC6809 Inverse Assembler") 3).length FILE_BUFSIZE),
          .fopen, .fread 3, .send .chunk [1, 2, 3] 2, .send .lineFeed [10] 1,
          .close, .fclose]⟩ := by
    rw [main_undisturbed exampleOpts exampleConfig (ascii "192.168.1.16") (ascii "I6809")
      (ascii "I6809.R") shortSendEnv rfl rfl rfl]
    simp [transfer, connectAndIdentify, header, payload, finish, sendLoop, freadCount,
      shortSendEnv, quietEnv, exampleConfig, FILE_BUFSIZE, sendReturn, strlen, ascii,
      EXIT_SUCCESS]
  refine ⟨⟨rfl, rfl, rfl, rfl, rfl, rfl, fun _ => Nat.le_refl _, fun _ => rfl, rfl⟩,
    ?_, ?_, ?_, ?_⟩
  · rw [hrun]
  · rw [hrun]; rfl
  · rw [hrun]; rfl
  · rw [hrun]; decide

/-- The undisturbed run on a file of three bytes, with sends that accept all
their bytes: the bytes after the header are the file and the line feed. -/
theorem payload_of_whole_sends_example :
    wireBytes (afterHeader
        (main exampleOpts [ascii "I6809.R"] (quietEnv 3 [1, 2, 3])).trace) = [1, 2, 3, 10] :=
  (payload_of_whole_sends exampleOpts exampleConfig (ascii "192.168.1.16")
      (ascii "I6809") (ascii "I6809.R") (quietEnv 3 [1, 2, 3]) [1, 2, 3] exampleReply
      exampleOpts_parsed rfl rfl (quietEnv_undisturbed [1, 2, 3])
      ⟨fun _ cap h => by cases h; exact Nat.le_refl _,
       fun cap h => by cases h; decide⟩).1

/-- C3 does not hold for a file of 99999999 bytes: the field is
the nine digits of 100000000. -/
theorem C3_count_field_nine_digits :
    byteCountField (headerText (ascii "I6809") false (ascii "Inverse Assembler") 99999999)
        (ascii "I6809") (ascii "Inverse Assembler") = ascii "100000000"
      ∧ ¬ (byteCountField
          (headerText (ascii "I6809") false (ascii "Inverse Assembler") 99999999)
          (ascii "I6809") (ascii "Inverse Assembler")).length = 8 := by
  decide

/-- C3 at the input of the specification: for a file of 1234 bytes the
field is `00001235`. -/
theorem C3_count_field_witness :
    1234 + 1 ≤ 99999999
      ∧ byteCountField (headerText (ascii "I6809") false (ascii "Inverse Assembler") 1234)
          (ascii "I6809") (ascii "Inverse Assembler") = ascii "00001235" :=
  ⟨by decide,
   (C3_count_field_eight_digits (ascii "I6809") (ascii "Inverse Assembler") false 1234
      (by decide)).2.2.2.trans (by decide)⟩

theorem example_run_sends_line_feed :
    ∃ ret, Event.send .lineFeed [10] ret
      ∈ (main exampleOpts [ascii "I6809.R"] (quietEnv 3 [1, 2, 3])).trace := by
  refine ⟨1, ?_⟩
  rw [main_undisturbed exampleOpts exampleConfig (ascii "192.168.1.16") (ascii "I6809")
    (ascii "I6809.R") _ rfl rfl rfl]
  simp [transfer, connectAndIdentify, header, payload, finish, sendLoop, freadCount,
    quietEnv, exampleConfig, FILE_BUFSIZE, sendReturn]

/-- C5 at a concrete input: the run on a file of three bytes sends the line
feed, and its status is decided by the comparison with the size 3. -/
theorem C5_exit_status_witness :
    (∃ ret, Event.send .lineFeed [10] ret
        ∈ (main exampleOpts [ascii "I6809.R"] (quietEnv 3 [1, 2, 3])).trace)
      ∧ ∃ S, (quietEnv 3 [1, 2, 3]).lstat = some S ∧
        ((main exampleOpts [ascii "I6809.R"] (quietEnv 3 [1, 2, 3])).status = EXIT_SUCCESS
          ↔ bytesForwarded
              (main exampleOpts [ascii "I6809.R"] (quietEnv 3 [1, 2, 3])).trace = S) ∧
        (bytesForwarded (main exampleOpts [ascii "I6809.R"] (quietEnv 3 [1, 2, 3])).trace ≠ S
          → (main exampleOpts [ascii "I6809.R"] (quietEnv 3 [1, 2, 3])).status
              = EXIT_FAILURE) :=
  ⟨example_run_sends_line_feed,
   C5_exit_status_matches_total exampleOpts [ascii "I6809.R"] (quietEnv 3 [1, 2, 3])
     example_run_sends_line_feed⟩

/-- C10 at a concrete input: a file of exactly 10000 bytes is read in two
iterations, the second of which reads and forwards nothing. -/
theorem C10_loop_iterations_witness :
    Undisturbed (quietEnv 10000 (List.replicate 10000 0)) (List.replicate 10000 0) exampleReply
      ∧ freads (main exampleOpts [ascii "I6809.R"]
          (quietEnv 10000 (List.replicate 10000 0))).trace = [10000, 0] := by
  have hu : Undisturbed (quietEnv 10000 (List.replicate 10000 0)) (List.replicate 10000 0)
      exampleReply :=
    ⟨(congrArg some (List.length_replicate 10000 0)).symm, rfl, rfl, rfl, rfl, rfl,
      fun _ => Nat.le_refl _, fun _ => rfl, rfl⟩
  have h := (C10_loop_iterations exampleOpts exampleConfig (ascii "192.168.1.16")
    (ascii "I6809") (ascii "I6809.R") (quietEnv 10000 (List.replicate 10000 0))
    (List.replicate 10000 0) exampleReply exampleOpts_parsed rfl rfl hu).1
  refine ⟨hu, ?_⟩
  rw [h, List.length_replicate]
  decide

end IAdown
